import Mathlib

/-!
# httpsigcesr: signature base construction and request signing

A shallow embedding of `signature/signature.go` (package `signature`) and of
`httpclient/cser_httpclient.go` (the field list and `SendSignedRequest`).

Conventions of the embedding:

* a Go `string` is a Lean `String`; `fmt.Sprintf` with `%s` verbs is string
  concatenation, `%d` on an `int64` is the decimal rendering of an `Int`;
* a Go `(string, error)` result is a pair `String × Option error`, the second
  component being `none` for a `nil` error; `fmt.Errorf` builds the message;
* `http.Header` (a `map[string][]string`) is a function from keys to the list of
  values stored under the key, the empty list standing for an absent key;
* `*http.Request` is a record with a non-nil `URL` and a non-nil `Header`, as
  `http.NewRequest` builds it;
* the wall clock, `ed25519.Sign` and `cesr.Encode` are parameters of `SignRequest`;
  `json.Marshal`, `http.NewRequestWithContext`, `digest.AddDigest` and
  `(*http.Client).Do` are parameters of `SendSignedRequest`.
-/

namespace httpsigcesr

/-- Go's builtin `error`, carried by its message. -/
abbrev error := String

/-- Byte slices (`[]byte`, `ed25519.PrivateKey`). -/
abbrev Bytes := List Nat

namespace strings

/-- Go `strings.HasPrefix(s, p)`: `len(s) >= len(p) && s[:len(p)] == p`. -/
def HasPrefix (s p : String) : Bool :=
  p.data.isPrefixOf s.data

end strings

namespace textproto

/-- The characters outside letters and digits that `validHeaderFieldByte` accepts
(the `token` characters of RFC 7230). -/
def tokenPunct : List Char := "!#$%&'*+-.^_`|~".data

/-- Go `textproto.validHeaderFieldByte`. -/
def validHeaderFieldByte (c : Char) : Bool :=
  ('a' ≤ c && c ≤ 'z') || ('A' ≤ c && c ≤ 'Z') || ('0' ≤ c && c ≤ '9') || tokenPunct.contains c

/-- The rewriting loop of Go's `canonicalMIMEHeaderKey`: upper-case the first
letter and every letter after a dash, lower-case the others. -/
def canonLoop : Bool → List Char → List Char
  | _, [] => []
  | upper, c :: cs =>
    let c1 : Char :=
      if upper && ('a' ≤ c && c ≤ 'z') then Char.ofNat (c.toNat - 32)
      else if !upper && ('A' ≤ c && c ≤ 'Z') then Char.ofNat (c.toNat + 32)
      else c
    c1 :: canonLoop (c1 == '-') cs

/-- Go `textproto.CanonicalMIMEHeaderKey`: a key holding a byte that is not a
valid header field byte is returned unchanged, any other key is canonicalized. -/
def CanonicalMIMEHeaderKey (s : String) : String :=
  if s.data.all validHeaderFieldByte then ⟨canonLoop true s.data⟩ else s

end textproto

/-- Go `http.Header`: the values stored under each key, in insertion order. -/
abbrev Header := String → List String

namespace Header

/-- Go `http.Header.Get`: the first value stored under the canonical form of
the key, or the empty string. -/
def Get (h : Header) (key : String) : String :=
  match h (textproto.CanonicalMIMEHeaderKey key) with
  | [] => ""
  | v :: _ => v

/-- Go `http.Header.Add`: append the value to the values stored under the
canonical form of the key. -/
def Add (h : Header) (key value : String) : Header :=
  fun k =>
    if k = textproto.CanonicalMIMEHeaderKey key then h k ++ [value] else h k

/-- The empty header map. -/
def empty : Header := fun _ => []

end Header

/-- The fields of Go's `url.URL` that the signature code reads, and the two
(`Opaque`, `ForceQuery`) that `URL.RequestURI` reads besides them. -/
structure URL where
  Scheme : String
  Opaque : String
  Host : String
  Path : String
  RawPath : String
  ForceQuery : Bool
  RawQuery : String

/-- Go's `http.Request`, restricted to what the signature code reads and writes. -/
structure Request where
  Method : String
  URL : URL
  Header : Header

/-- Go `SignatureData` (signature.go, lines 13-18). -/
structure SignatureData where
  created : Int
  signatureFields : List String
  privateKey : Bytes
  publicKey : String

/-- The loop of `SignatureInput` (signature.go, lines 31-37). -/
def SignatureInput.loop : List String → String → String
  | [], fieldString => fieldString
  | field :: rest, fieldString =>
    if fieldString = "" then
      SignatureInput.loop rest ("\"" ++ field ++ "\"")
    else
      SignatureInput.loop rest (fieldString ++ " \"" ++ field ++ "\"")

/-- Go `(*SignatureData).SignatureInput` (signature.go, lines 29-39). -/
def SignatureData.SignatureInput (sd : SignatureData) : String :=
  let fieldString := SignatureInput.loop sd.signatureFields ""
  "(" ++ fieldString ++ ");created=" ++ toString sd.created ++ ";keyid=\"" ++ sd.publicKey
    ++ "\";alg=\"" ++ "ed25519" ++ "\""

/-- Go `[]byte(s)`: the UTF-8 bytes of a string. -/
def bytesOf (s : String) : Bytes :=
  s.data.flatMap (fun c => (String.utf8EncodeChar c).map UInt8.toNat)

namespace url

/-- Go `url.shouldEscape(c, encodePath)`: whether a byte of a path is percent-escaped. -/
def shouldEscape (c : Nat) : Bool :=
  if (97 ≤ c && c ≤ 122) || (65 ≤ c && c ≤ 90) || (48 ≤ c && c ≤ 57) then false
  else if "-_.~".data.contains (Char.ofNat c) && c < 128 then false
  else if "$&+,/:;=?@".data.contains (Char.ofNat c) && c < 128 then c == 63
  else true

/-- The table `upperhex` of Go's `net/url`. -/
def upperhex (n : Nat) : Char :=
  "0123456789ABCDEF".data.getD n '0'

/-- Go `url.escape(s, encodePath)`: every byte that `shouldEscape` selects becomes
`%XX`, the others are copied. -/
def escape (s : String) : String :=
  ⟨(bytesOf s).flatMap (fun c =>
    if shouldEscape c then ['%', upperhex (c / 16), upperhex (c % 16)] else [Char.ofNat c])⟩

/-- Go `url.validEncoded(s, encodePath)`. -/
def validEncoded (s : String) : Bool :=
  (bytesOf s).all (fun c =>
    ("!$&'()*+,;=:@[]%".data.contains (Char.ofNat c) && c < 128) || !shouldEscape c)

/-- Go `url.ishex` followed by `url.unhex`: the value of a hexadecimal digit. -/
def unhex (c : Nat) : Option Nat :=
  if 48 ≤ c && c ≤ 57 then some (c - 48)
  else if 97 ≤ c && c ≤ 102 then some (c - 97 + 10)
  else if 65 ≤ c && c ≤ 70 then some (c - 65 + 10)
  else none

/-- Go `url.unescape(s, encodePath)` on bytes: `%XX` is decoded, a `%` that is
not followed by two hexadecimal digits is an error (`none`). -/
def unescape : Bytes → Option Bytes
  | [] => some []
  | 37 :: a :: b :: rest =>
    match unhex a, unhex b, unescape rest with
    | some x, some y, some out => some ((x * 16 + y) :: out)
    | _, _, _ => none
  | c :: rest =>
    if c = 37 then none
    else match unescape rest with
      | some out => some (c :: out)
      | none => none

end url

/-- Go `(*url.URL).EscapedPath`. -/
def URL.EscapedPath (u : URL) : String :=
  if u.RawPath ≠ "" && url.validEncoded u.RawPath
      && url.unescape (bytesOf u.RawPath) == some (bytesOf u.Path) then
    u.RawPath
  else if u.Path = "*" then "*"
  else url.escape u.Path

/-- Go `(*url.URL).RequestURI`. -/
def URL.RequestURI (u : URL) : String :=
  let result :=
    if u.Opaque = "" then
      (if u.EscapedPath = "" then "/" else u.EscapedPath)
    else if strings.HasPrefix u.Opaque "//" then u.Scheme ++ ":" ++ u.Opaque
    else u.Opaque
  if u.ForceQuery || u.RawQuery ≠ "" then result ++ "?" ++ u.RawQuery else result

/-- Go `(*SignatureData).evaluateField` (signature.go, lines 80-109). -/
def SignatureData.evaluateField (_sd : SignatureData) (field : String) (r : Request) :
    String × Option error :=
  if field = "@method" then (r.Method, none)
  else if field = "@path" then (r.URL.Path, none)
  else if field = "@target-uri" then (r.URL.RequestURI, none)
  else if field = "@authority" then (r.URL.Host, none)
  else if field = "@scheme" then (r.URL.Scheme, none)
  else if field = "@request-target" then
    (if r.URL.RawQuery.utf8ByteSize = 0 then (r.URL.RawPath, none)
     else (r.URL.RawPath ++ "?" ++ r.URL.RawQuery, none))
  else if field = "@query" then
    (if r.URL.RawQuery.utf8ByteSize = 0 then ("", none)
     else ("?" ++ r.URL.RawQuery, none))
  else if strings.HasPrefix field "@" then ("", some ("unknown field " ++ field))
  else (r.Header.Get field, none)

/-- The loop of `SignatureBase` (signature.go, lines 43-53): `inl err` is the
early return at line 46, `inr fieldString` the value of the accumulator when
the loop ends. -/
def SignatureBase.loop (sd : SignatureData) (r : Request) :
    List String → String → error ⊕ String
  | [], fieldString => Sum.inr fieldString
  | field :: rest, fieldString =>
    match sd.evaluateField field r with
    | (_, some err) => Sum.inl err
    | (value, none) =>
      if fieldString = "" then
        SignatureBase.loop sd r rest ("\"" ++ field ++ "\": " ++ value)
      else
        SignatureBase.loop sd r rest (fieldString ++ "\n\"" ++ field ++ "\": " ++ value)

/-- Go `(*SignatureData).SignatureBase` (signature.go, lines 41-59). -/
def SignatureData.SignatureBase (sd : SignatureData) (r : Request) : String × Option error :=
  match SignatureBase.loop sd r sd.signatureFields "" with
  | Sum.inl err => ("", some err)
  | Sum.inr fieldString =>
    let fieldString := if fieldString ≠ "" then fieldString ++ "\n" else fieldString
    (fieldString ++ ("\"@signature-params\": " ++ sd.SignatureInput), none)

/-- What `SignRequest` takes from outside the package: the wall clock, already
formatted with the layout `2006-01-02T15:04:05.000000-07:00` in UTC,
`ed25519.Sign` and `cesr.Encode`. -/
structure Externals where
  originDate : String
  Sign : Bytes → Bytes → Bytes
  Encode : Bytes → String → String

/-- Go `(*SignatureData).SignRequest` (signature.go, lines 61-78): the request
after the call, and the returned error. -/
def SignatureData.SignRequest (ext : Externals) (sd : SignatureData) (r : Request) :
    Request × Option error :=
  let r1 : Request := { r with Header := r.Header.Add "origin-date" ext.originDate }
  match sd.SignatureBase r1 with
  | (_, some err) => (r1, some err)
  | (s, none) =>
    let signatureInput := sd.SignatureInput
    let signature := ext.Sign sd.privateKey (bytesOf s)
    let signatureCESR := ext.Encode signature "0B"
    let r2 : Request :=
      { r1 with Header := r1.Header.Add "signature-input" ("signify=" ++ signatureInput) }
    let r3 : Request :=
      { r2 with Header :=
          r2.Header.Add "signature" ("indexed=\"?0\";signify=\"" ++ signatureCESR ++ "\"") }
    (r3, none)

/-- The package-level field list of `httpclient` (cser_httpclient.go, lines 14-16). -/
def signatureFields : List String :=
  ["@method", "@path", "origin-date", "signify-resource", "content-digest"]

/-- Go `NewSignatureData` (signature.go, lines 20-27); `unixNow` is the reading
`time.Now().UTC().Unix()` of the wall clock when the composer is built. -/
def NewSignatureData (unixNow : Int) (fields : List String) (publicKey : String)
    (privateKey : Bytes) : SignatureData :=
  { created := unixNow
    signatureFields := fields
    publicKey := publicKey
    privateKey := privateKey }

/-- Go `CserSignedClient` (cser_httpclient.go, lines 18-21). -/
structure CserSignedClient where
  privateKey : Bytes
  publicKey : String

/-- What `SendSignedRequest` takes from outside the package: `json.Marshal`,
`http.NewRequestWithContext`, the constant `digest.DigestSha256` and the function
`digest.AddDigest` (it may add headers to the request and may fail), the wall
clock read by `NewSignatureData`, the externals of `SignRequest`, and
`(*http.Client).Do`. -/
structure ClientExternals (Body Response : Type) where
  Marshal : Body → Except error Bytes
  NewRequestWithContext : String → String → Bytes → Except error Request
  DigestSha256 : String
  AddDigest : Request → String → Bytes → Bool → Request × Option error
  unixNow : Int
  signing : Externals
  Do : Request → Option Response × Option error

/-- Go `(*CserSignedClient).SendSignedRequest` (cser_httpclient.go, lines 30-56).
The package-level variable `signatureFields` is read at line 51: `fields` is its
value when the call is made (`signatureFields` unless the variable was
reassigned). The error that `SignRequest` returns is stored in `err` at line 52
and never read. -/
def CserSignedClient.SendSignedRequest {Body Response : Type}
    (env : ClientExternals Body Response) (fields : List String) (csc : CserSignedClient)
    (method url : String) (body : Body) : Option Response × Option error :=
  match env.Marshal body with
  | Except.error err => (none, some err)
  | Except.ok bodyBytes =>
    match env.NewRequestWithContext method url bodyBytes with
    | Except.error err => (none, some err)
    | Except.ok req =>
      match env.AddDigest req env.DigestSha256 bodyBytes false with
      | (_, some err) => (none, some err)
      | (req1, none) =>
        let req2 : Request :=
          if bodyBytes.length ≥ 0 then
            { req1 with Header := req1.Header.Add "Content-Type" "application/json" }
          else req1
        let req3 : Request :=
          { req2 with Header := req2.Header.Add "signify-resource" csc.publicKey }
        let signatureData := NewSignatureData env.unixNow fields csc.publicKey csc.privateKey
        let signed := signatureData.SignRequest env.signing req3
        env.Do signed.1

/-- The names of the `case` labels of the `switch` in `evaluateField`
(signature.go, lines 82-98): the recognized derived fields. -/
def recognizedDerivedFields : List String :=
  ["@method", "@path", "@target-uri", "@authority", "@scheme", "@request-target", "@query"]

/-- An unrecognized derived field: a name that starts with `@` and is not one
of the seven recognized names. -/
def unknownDerivedField (field : String) : Bool :=
  strings.HasPrefix field "@" && !recognizedDerivedFields.contains field

/-- The request of the examples: `POST https://example.com/api/items`, no
query, and the one header `signify-resource`. -/
def exampleRequest : Request :=
  { Method := "POST"
    URL := { Scheme := "https", Opaque := "", Host := "example.com", Path := "/api/items",
             RawPath := "", ForceQuery := false, RawQuery := "" }
    Header := Header.empty.Add "signify-resource" "EKey" }

/-- A private key of the examples: 64 bytes, the length of an
`ed25519.PrivateKey`. -/
def exampleKey : Bytes := List.replicate 64 7

/-- A composer over the given field list, used in the examples. -/
def exampleComposer (fields : List String) : SignatureData :=
  { created := 1700000000, signatureFields := fields, privateKey := exampleKey, publicKey := "EKey" }

/-- The default port of a scheme, in the words of the specification: 80 for
`http`, 443 for `https`. -/
def spec_defaultPort (scheme : String) : Option String :=
  if scheme = "http" then some "80"
  else if scheme = "https" then some "443"
  else none

/-- The host and the port of a `host:port` string: the port is what follows the
last colon when it is made of decimal digits, and is empty otherwise. -/
def spec_splitHostPort (hostPort : String) : String × String :=
  let tail := (hostPort.data.reverse.takeWhile (fun c => c != ':')).reverse
  if hostPort.data.contains ':' && tail.all Char.isDigit then
    (⟨hostPort.data.take (hostPort.data.length - tail.length - 1)⟩, ⟨tail⟩)
  else (hostPort, "")

/-- The value of `@authority` in the words of the specification: the host, and
the port only if it is not the default one for the scheme. -/
def spec_authority (u : URL) : String :=
  let hp := spec_splitHostPort u.Host
  if hp.2 = "" ∨ some hp.2 = spec_defaultPort u.Scheme then hp.1
  else hp.1 ++ ":" ++ hp.2

/-- The request `GET http://example.com:80/`: the URL names the default port
of its scheme. -/
def defaultPortRequest : Request :=
  { Method := "GET"
    URL := { Scheme := "http", Opaque := "", Host := "example.com:80", Path := "/",
             RawPath := "", ForceQuery := false, RawQuery := "" }
    Header := Header.empty }

/-- Externals of the examples: a fixed clock reading, and stand-ins for
`ed25519.Sign` (key followed by message) and `cesr.Encode` (the type indicator
followed by the number of bytes). -/
def exampleExternals : Externals :=
  { originDate := "2024-01-02T03:04:05.000006+00:00"
    Sign := fun key message => key ++ message
    Encode := fun raw code => code ++ toString raw.length }

/-- A request that already carries an `Origin-Date` header when it is signed. -/
def datedRequest : Request :=
  { exampleRequest with Header := exampleRequest.Header.Add "origin-date" "1999-12-31" }

/-- The request `GET /p%0A%22x-b%22:%202` (the path holds a line feed once
decoded) with the header `x-b: 3`. -/
def splitPathRequest : Request :=
  { Method := "GET"
    URL := { Scheme := "https", Opaque := "", Host := "example.com", Path := "/p\n\"x-b\": 2",
             RawPath := "", ForceQuery := false, RawQuery := "" }
    Header := Header.empty.Add "x-b" "3" }

/-- The request `GET /p` with a header `x-b` whose value holds a line feed. -/
def splitHeaderRequest : Request :=
  { Method := "GET"
    URL := { Scheme := "https", Opaque := "", Host := "example.com", Path := "/p",
             RawPath := "", ForceQuery := false, RawQuery := "" }
    Header := Header.empty.Add "x-b" "2\n\"x-b\": 3" }

/-- The request `GET https://example.com?a=b`: the path of the URL is empty. -/
def emptyPathRequest : Request :=
  { Method := "GET"
    URL := { Scheme := "https", Opaque := "", Host := "example.com", Path := "",
             RawPath := "", ForceQuery := false, RawQuery := "a=b" }
    Header := Header.empty }

/-- The request target in the words of the specification: the path of the URL
followed, when the raw query is not empty, by `?` and the raw query. -/
def spec_targetURI (u : URL) : String :=
  if u.RawQuery = "" then u.Path else u.Path ++ "?" ++ u.RawQuery

/-- Client externals of the examples: the body is a string, the response is the
list of `Signature` values of the request that was sent. -/
def exampleClientExternals : ClientExternals String (List String) :=
  { Marshal := fun body => Except.ok (body.data.map Char.toNat)
    NewRequestWithContext := fun method _ _ =>
      Except.ok { exampleRequest with Method := method, Header := Header.empty }
    DigestSha256 := "sha-256"
    AddDigest := fun req alg _ _ =>
      ({ req with Header := req.Header.Add "content-digest" (alg ++ "=:AAAA:") }, none)
    unixNow := 1700000000
    signing := exampleExternals
    Do := fun req => (some (req.Header "Signature"), none) }

/-- The client of the examples. -/
def exampleClient : CserSignedClient :=
  { privateKey := exampleKey, publicKey := "EKey" }

/-- The request that `http.NewRequest` builds for `https://example.com/x`
followed by the given query: `url.Parse` stores the path in `Path` and leaves
the `RawPath` hint empty, because `/x` is its own default encoding. -/
def parsedRequest (rawQuery : String) : Request :=
  { Method := "GET"
    URL := { Scheme := "https", Opaque := "", Host := "example.com", Path := "/x",
             RawPath := "", ForceQuery := false, RawQuery := rawQuery }
    Header := Header.empty }

/-- The value of `@request-target` in the words of the specification: the path
as the URL writes it (`EscapedPath()`), and if a query string is present, that
path followed by `?` and the raw query. -/
def spec_requestTarget (u : URL) : String :=
  if u.RawQuery = "" then u.EscapedPath else u.EscapedPath ++ "?" ++ u.RawQuery

/-! ## Strings -/

theorem quoted_ne_empty (a b : String) : "\"" ++ a ++ b ≠ "" := by
  intro h
  have := congrArg String.length h
  simp [String.length_append] at this
  have h1 : ("\"" : String).length = 1 := by decide
  have h2 : ("" : String).length = 0 := by decide
  omega

theorem append_ne_empty_left {a : String} (b : String) (h : a ≠ "") : a ++ b ≠ "" := by
  intro hab
  apply h
  have h1 := congrArg String.data hab
  rw [String.data_append] at h1
  apply String.ext
  exact (List.append_eq_nil.mp h1).1

theorem utf8ByteSize_go_pos (c : Char) (cs : List Char) : 0 < String.utf8ByteSize.go (c :: cs) := by
  have := Char.utf8Size_pos c
  simp only [String.utf8ByteSize.go]
  omega

theorem utf8ByteSize_eq_zero_iff (s : String) : s.utf8ByteSize = 0 ↔ s = "" := by
  constructor
  · intro h
    cases s with
    | mk cs =>
      cases cs with
      | nil => rfl
      | cons c cs =>
        have := utf8ByteSize_go_pos c cs
        simp only [String.utf8ByteSize] at h
        omega
  · intro h
    subst h
    rfl

/-! ## The field evaluator -/

theorem unknownDerivedField_iff (field : String) :
    unknownDerivedField field = true
      ↔ strings.HasPrefix field "@" = true ∧ field ∉ recognizedDerivedFields := by
  simp [unknownDerivedField]

theorem evaluateField_unknown (sd : SignatureData) (field : String) (r : Request)
    (h : unknownDerivedField field = true) :
    sd.evaluateField field r = ("", some ("unknown field " ++ field)) := by
  obtain ⟨hp, hn⟩ := (unknownDerivedField_iff field).mp h
  simp only [recognizedDerivedFields, List.mem_cons, List.mem_nil_iff, or_false, not_or] at hn
  obtain ⟨h1, h2, h3, h4, h5, h6, h7⟩ := hn
  simp only [SignatureData.evaluateField, if_neg h1, if_neg h2, if_neg h3, if_neg h4, if_neg h5,
    if_neg h6, if_neg h7, hp, if_true]

theorem evaluateField_known (sd : SignatureData) (field : String) (r : Request)
    (h : unknownDerivedField field = false) :
    (sd.evaluateField field r).2 = none := by
  have hn : ¬ (strings.HasPrefix field "@" = true ∧ field ∉ recognizedDerivedFields) := by
    rw [← unknownDerivedField_iff, h]
    simp
  simp only [recognizedDerivedFields, List.mem_cons, List.mem_nil_iff, or_false, not_or] at hn
  unfold SignatureData.evaluateField
  split_ifs <;> first
    | rfl
    | exact absurd (And.intro (by assumption) (by simp only [not_false_eq_true, and_self, *])) hn

theorem evaluateField_error_iff (sd : SignatureData) (field : String) (r : Request) :
    (sd.evaluateField field r).2 ≠ none ↔ unknownDerivedField field = true := by
  cases h : unknownDerivedField field with
  | true => simp [evaluateField_unknown sd field r h]
  | false => simp [evaluateField_known sd field r h]

/-- C4: `evaluateField` returns an error exactly when the name starts with `@`
and is not one of `@method`, `@path`, `@target-uri`, `@authority`, `@scheme`,
`@request-target`, `@query`; it then returns the empty string and the message
`unknown field ` followed by the name, as for `@bogus`. -/
theorem evaluateField_fails_iff (sd : SignatureData) (field : String) (r : Request) :
    ((sd.evaluateField field r).2 ≠ none
        ↔ strings.HasPrefix field "@" = true
            ∧ field ∉ ["@method", "@path", "@target-uri", "@authority", "@scheme",
                        "@request-target", "@query"])
      ∧ (if strings.HasPrefix field "@" = true
              ∧ field ∉ ["@method", "@path", "@target-uri", "@authority", "@scheme",
                          "@request-target", "@query"]
          then sd.evaluateField field r = ("", some ("unknown field " ++ field))
          else (sd.evaluateField field r).2 = none)
      ∧ sd.evaluateField "@bogus" r = ("", some "unknown field @bogus") := by
  have hiff := unknownDerivedField_iff field
  simp only [recognizedDerivedFields] at hiff
  refine ⟨?_, ?_, ?_⟩
  · rw [evaluateField_error_iff, hiff]
  · split_ifs with h
    · exact evaluateField_unknown sd field r (hiff.mpr h)
    · apply evaluateField_known
      cases hu : unknownDerivedField field with
      | true => exact absurd (hiff.mp hu) h
      | false => rfl
  · exact evaluateField_unknown sd "@bogus" r (by decide)

theorem evaluateField_of_not_derived (sd : SignatureData) (field : String) (r : Request)
    (h : strings.HasPrefix field "@" = false) :
    sd.evaluateField field r = (r.Header.Get field, none) := by
  have h1 : field ≠ "@method" := by rintro rfl; revert h; decide
  have h2 : field ≠ "@path" := by rintro rfl; revert h; decide
  have h3 : field ≠ "@target-uri" := by rintro rfl; revert h; decide
  have h4 : field ≠ "@authority" := by rintro rfl; revert h; decide
  have h5 : field ≠ "@scheme" := by rintro rfl; revert h; decide
  have h6 : field ≠ "@request-target" := by rintro rfl; revert h; decide
  have h7 : field ≠ "@query" := by rintro rfl; revert h; decide
  simp only [SignatureData.evaluateField, if_neg h1, if_neg h2, if_neg h3, if_neg h4, if_neg h5,
    if_neg h6, if_neg h7, h, Bool.false_eq_true, if_false]

theorem Header_Get_eq_headD (h : Header) (key : String) :
    h.Get key = (h (textproto.CanonicalMIMEHeaderKey key)).headD "" := by
  unfold Header.Get
  cases h (textproto.CanonicalMIMEHeaderKey key) <;> rfl

/-- C5: for a field name that does not start with `@`, `evaluateField` returns,
with no error, what `Header.Get` returns for the name: the first of the values
the request stores under the name (in its canonical form, as `Header.Get` looks
names up), and the empty string when the request stores no value under it. -/
theorem evaluateField_header (sd : SignatureData) (field : String) (r : Request)
    (h : strings.HasPrefix field "@" = false) :
    sd.evaluateField field r = (r.Header.Get field, none)
      ∧ (sd.evaluateField field r).1
          = (r.Header (textproto.CanonicalMIMEHeaderKey field)).headD ""
      ∧ (r.Header (textproto.CanonicalMIMEHeaderKey field) = [] →
          sd.evaluateField field r = ("", none)) := by
  have h1 := evaluateField_of_not_derived sd field r h
  refine ⟨h1, ?_, ?_⟩
  · rw [h1, Header_Get_eq_headD]
  · intro hnil
    rw [h1, Header_Get_eq_headD, hnil]
    rfl

/-- Witness of C5: a header that the example request carries, and one that it
does not. -/
theorem evaluateField_header_witness :
    strings.HasPrefix "signify-resource" "@" = false
      ∧ strings.HasPrefix "x-missing" "@" = false
      ∧ (exampleComposer []).evaluateField "signify-resource" exampleRequest = ("EKey", none)
      ∧ (exampleComposer []).evaluateField "x-missing" exampleRequest = ("", none) :=
  ⟨by decide, by decide,
    (evaluateField_header (exampleComposer []) "signify-resource" exampleRequest
      (by decide)).1.trans (by decide),
    (evaluateField_header (exampleComposer []) "x-missing" exampleRequest
      (by decide)).2.2 (by decide)⟩

/-- C6: `evaluateField("@query")` returns, with no error, the empty string when
the raw query of the URL is empty and `?` followed by the raw query otherwise;
the raw query `a=b` gives `?a=b`. -/
theorem evaluateField_query (sd : SignatureData) (r : Request) :
    sd.evaluateField "@query" r
        = (if r.URL.RawQuery = "" then "" else "?" ++ r.URL.RawQuery, none)
      ∧ sd.evaluateField "@query" { r with URL := { r.URL with RawQuery := "" } } = ("", none)
      ∧ sd.evaluateField "@query" { r with URL := { r.URL with RawQuery := "a=b" } }
          = ("?a=b", none) := by
  have key : ∀ q : Request, sd.evaluateField "@query" q
      = (if q.URL.RawQuery = "" then "" else "?" ++ q.URL.RawQuery, none) := by
    intro q
    have e : sd.evaluateField "@query" q
        = (if q.URL.RawQuery.utf8ByteSize = 0 then ("", none)
            else ("?" ++ q.URL.RawQuery, none)) := by
      simp only [SignatureData.evaluateField]
      rfl
    rw [e]
    by_cases hq : q.URL.RawQuery = ""
    · rw [if_pos ((utf8ByteSize_eq_zero_iff _).mpr hq), if_pos hq]
    · rw [if_neg (fun hz => hq ((utf8ByteSize_eq_zero_iff _).mp hz)), if_neg hq]
  refine ⟨key r, ?_, ?_⟩
  · rw [key]
    rfl
  · rw [key]
    rfl

theorem evaluateField_request_target_eq (sd : SignatureData) (r : Request) :
    sd.evaluateField "@request-target" r
      = (if r.URL.RawQuery = "" then r.URL.RawPath
          else r.URL.RawPath ++ "?" ++ r.URL.RawQuery, none) := by
  have e : sd.evaluateField "@request-target" r
      = (if r.URL.RawQuery.utf8ByteSize = 0 then (r.URL.RawPath, none)
          else (r.URL.RawPath ++ "?" ++ r.URL.RawQuery, none)) := by
    simp only [SignatureData.evaluateField]
    rfl
  rw [e]
  by_cases hq : r.URL.RawQuery = ""
  · rw [if_pos ((utf8ByteSize_eq_zero_iff _).mpr hq), if_pos hq]
  · rw [if_neg (fun hz => hq ((utf8ByteSize_eq_zero_iff _).mp hz)), if_neg hq]

/-- C7, the code at the failing input: for the request that `http.NewRequest`
builds for `https://example.com/x` (path `/x`, which is its own escaping, so the
`RawPath` hint is empty), `evaluateField("@request-target")` returns the empty
string with no query and `?a=b` with the raw query `a=b`, where the raw path
followed by the query is `/x` and `/x?a=b`; on the same requests the sibling
branches `@path` and `@target-uri` do return `/x`, `/x` and `/x?a=b`. -/
theorem evaluateField_request_target_parsed :
    url.escape "/x" = "/x"
      ∧ (exampleComposer ["@request-target"]).evaluateField "@request-target"
            (parsedRequest "") = ("", none)
      ∧ (exampleComposer ["@request-target"]).evaluateField "@request-target"
            (parsedRequest "a=b") = ("?a=b", none)
      ∧ spec_requestTarget (parsedRequest "").URL = "/x"
      ∧ spec_requestTarget (parsedRequest "a=b").URL = "/x?a=b"
      ∧ (exampleComposer ["@request-target"]).evaluateField "@path" (parsedRequest "")
          = ("/x", none)
      ∧ (exampleComposer ["@request-target"]).evaluateField "@target-uri" (parsedRequest "")
          = ("/x", none)
      ∧ (exampleComposer ["@request-target"]).evaluateField "@target-uri" (parsedRequest "a=b")
          = ("/x?a=b", none) := by
  decide

/-- C8: `evaluateField` returns, with no error and unchanged, the method of the
request for `@method`, the path of the URL for `@path` and the scheme of the URL
for `@scheme`. -/
theorem evaluateField_method_path_scheme (sd : SignatureData) (r : Request) :
    sd.evaluateField "@method" r = (r.Method, none)
      ∧ sd.evaluateField "@path" r = (r.URL.Path, none)
      ∧ sd.evaluateField "@scheme" r = (r.URL.Scheme, none) :=
  ⟨rfl, rfl, rfl⟩

/-- C9, as the code has it: `evaluateField("@authority")` returns, with no
error, the `Host` of the URL unchanged, so the port is part of the value
whenever it is part of `Host`, the default port of the scheme included. -/
theorem evaluateField_authority (sd : SignatureData) (r : Request) :
    sd.evaluateField "@authority" r = (r.URL.Host, none) :=
  rfl

/-- C9, counterexample: for `http://example.com:80/` the value of `@authority`
is `example.com:80`, with the port 80 that is the default one of `http`, where
the specification gives `example.com`. -/
theorem evaluateField_authority_keeps_default_port :
    (exampleComposer ["@authority"]).evaluateField "@authority" defaultPortRequest
        = ("example.com:80", none)
      ∧ defaultPortRequest.URL.Scheme = "http"
      ∧ spec_splitHostPort defaultPortRequest.URL.Host = ("example.com", "80")
      ∧ spec_defaultPort defaultPortRequest.URL.Scheme = some "80"
      ∧ spec_authority defaultPortRequest.URL = "example.com"
      ∧ ((exampleComposer ["@authority"]).evaluateField "@authority" defaultPortRequest).1
          ≠ spec_authority defaultPortRequest.URL := by
  decide

/-! ## The parameters trailer -/

theorem SignatureInput_loop_nonempty (fields : List String) (acc : String) (h : acc ≠ "") :
    SignatureInput.loop fields acc
      = String.intercalate.go acc " " (fields.map (fun f => "\"" ++ f ++ "\"")) := by
  induction fields generalizing acc with
  | nil => rfl
  | cons f rest ih =>
    simp only [SignatureInput.loop, if_neg h, List.map_cons, String.intercalate.go]
    rw [ih _ (append_ne_empty_left _ (append_ne_empty_left _ (append_ne_empty_left _ h)))]
    congr 1
    have : (" \"" : String) = " " ++ "\"" := by decide
    rw [this]
    simp only [String.append_assoc]

theorem SignatureInput_loop_eq (fields : List String) :
    SignatureInput.loop fields ""
      = " ".intercalate (fields.map (fun f => "\"" ++ f ++ "\"")) := by
  cases fields with
  | nil => rfl
  | cons f rest =>
    simp only [SignatureInput.loop, if_true, List.map_cons, String.intercalate]
    exact SignatureInput_loop_nonempty rest _ (quoted_ne_empty f "\"")

/-- C2: `SignatureInput` is `(`, the configured field names each wrapped in
double quotes, in configured order and separated by single spaces, then
`);created=<created>;keyid="<publicKey>";alg="ed25519"`; for the field list of
the wrapper the parenthesised list is
`("@method" "@path" "origin-date" "signify-resource" "content-digest")`, and for
the empty field list it is `()`. -/
theorem SignatureInput_exact (sd : SignatureData) :
    sd.SignatureInput
        = "(" ++ " ".intercalate (sd.signatureFields.map (fun f => "\"" ++ f ++ "\""))
            ++ ");created=" ++ toString sd.created
            ++ ";keyid=\"" ++ sd.publicKey ++ "\";alg=\"ed25519\""
      ∧ ({ sd with signatureFields := signatureFields }).SignatureInput
        = "(\"@method\" \"@path\" \"origin-date\" \"signify-resource\" \"content-digest\")"
            ++ ";created=" ++ toString sd.created
            ++ ";keyid=\"" ++ sd.publicKey ++ "\";alg=\"ed25519\""
      ∧ ({ sd with signatureFields := [] }).SignatureInput
        = "()" ++ ";created=" ++ toString sd.created
            ++ ";keyid=\"" ++ sd.publicKey ++ "\";alg=\"ed25519\"" := by
  refine ⟨?_, ?_, ?_⟩
  · simp only [SignatureData.SignatureInput, SignatureInput_loop_eq, String.append_assoc]
    rfl
  · simp only [SignatureData.SignatureInput, SignatureInput_loop_eq, String.append_assoc]
    rfl
  · simp only [SignatureData.SignatureInput, SignatureInput_loop_eq, String.append_assoc]
    rfl

/-! ## The signature base -/

theorem SignatureBase_loop_nonempty (sd : SignatureData) (r : Request) (fields : List String)
    (acc : String) (hacc : acc ≠ "")
    (hok : ∀ f ∈ fields, (sd.evaluateField f r).2 = none) :
    SignatureBase.loop sd r fields acc
      = Sum.inr (String.intercalate.go acc "\n"
          (fields.map (fun f => "\"" ++ f ++ "\": " ++ (sd.evaluateField f r).1))) := by
  induction fields generalizing acc with
  | nil => rfl
  | cons f rest ih =>
    have hf : (sd.evaluateField f r).2 = none := hok f (List.mem_cons_self _ _)
    have hrest : ∀ g ∈ rest, (sd.evaluateField g r).2 = none :=
      fun g hg => hok g (List.mem_cons_of_mem _ hg)
    have hpair : sd.evaluateField f r = ((sd.evaluateField f r).1, none) := by
      rw [← hf]
    rw [SignatureBase.loop, hpair]
    simp only [if_neg hacc, List.map_cons, String.intercalate.go]
    rw [ih _ (append_ne_empty_left _ (append_ne_empty_left _ (append_ne_empty_left _
      (append_ne_empty_left _ hacc)))) hrest]
    congr 2
    have : ("\n\"" : String) = "\n" ++ "\"" := by decide
    rw [this]
    simp only [String.append_assoc]

theorem SignatureBase_loop_ok (sd : SignatureData) (r : Request) (fields : List String)
    (hok : ∀ f ∈ fields, (sd.evaluateField f r).2 = none) :
    SignatureBase.loop sd r fields ""
      = Sum.inr ("\n".intercalate
          (fields.map (fun f => "\"" ++ f ++ "\": " ++ (sd.evaluateField f r).1))) := by
  cases fields with
  | nil => rfl
  | cons f rest =>
    have hf : (sd.evaluateField f r).2 = none := hok f (List.mem_cons_self _ _)
    have hrest : ∀ g ∈ rest, (sd.evaluateField g r).2 = none :=
      fun g hg => hok g (List.mem_cons_of_mem _ hg)
    have hpair : sd.evaluateField f r = ((sd.evaluateField f r).1, none) := by
      rw [← hf]
    rw [SignatureBase.loop, hpair]
    simp only [if_true, List.map_cons, String.intercalate]
    exact SignatureBase_loop_nonempty sd r rest _
      (append_ne_empty_left _ (quoted_ne_empty f "\": ")) hrest

theorem intercalate_go_ne_empty (acc sep : String) (l : List String) (h : acc ≠ "") :
    String.intercalate.go acc sep l ≠ "" := by
  induction l generalizing acc with
  | nil => exact h
  | cons a rest ih =>
    exact ih _ (append_ne_empty_left _ (append_ne_empty_left _ h))

theorem intercalate_lines_eq_empty_iff (sep : String) (fields : List String)
    (line : String → String) (hline : ∀ f, line f ≠ "") :
    sep.intercalate (fields.map line) = "" ↔ fields = [] := by
  cases fields with
  | nil => simp [String.intercalate]
  | cons f rest =>
    simp only [List.map_cons, String.intercalate]
    constructor
    · intro h
      exact absurd h (intercalate_go_ne_empty _ _ _ (hline f))
    · intro h
      cases h

/-- C1: when every configured field evaluates without error, `SignatureBase`
returns, with no error, the lines `"<field>": <value>` of the configured fields
in configured order joined by single newlines, then one newline exactly when
the field list is non-empty, then `"@signature-params": ` and `SignatureInput()`,
and nothing after it (the result ends with the `alg="ed25519"` of the trailer). -/
theorem SignatureBase_exact (sd : SignatureData) (r : Request)
    (hok : ∀ f ∈ sd.signatureFields, (sd.evaluateField f r).2 = none) :
    sd.SignatureBase r
        = ("\n".intercalate
              (sd.signatureFields.map
                (fun f => "\"" ++ f ++ "\": " ++ (sd.evaluateField f r).1))
            ++ (if sd.signatureFields = [] then "" else "\n")
            ++ "\"@signature-params\": " ++ sd.SignatureInput, none)
      ∧ ∃ pre, (sd.SignatureBase r).1 = pre ++ "alg=\"ed25519\"" := by
  have hbase : sd.SignatureBase r
        = ("\n".intercalate
              (sd.signatureFields.map
                (fun f => "\"" ++ f ++ "\": " ++ (sd.evaluateField f r).1))
            ++ (if sd.signatureFields = [] then "" else "\n")
            ++ "\"@signature-params\": " ++ sd.SignatureInput, none) := by
    rw [SignatureData.SignatureBase, SignatureBase_loop_ok sd r _ hok]
    have hiff := intercalate_lines_eq_empty_iff "\n" sd.signatureFields
      (fun f => "\"" ++ f ++ "\": " ++ (sd.evaluateField f r).1)
      (fun f => append_ne_empty_left _ (quoted_ne_empty f "\": "))
    by_cases hnil : sd.signatureFields = []
    · simp [hnil, String.intercalate]
    · have hne : "\n".intercalate
          (sd.signatureFields.map
            (fun f => "\"" ++ f ++ "\": " ++ (sd.evaluateField f r).1)) ≠ "" :=
        fun h => hnil (hiff.mp h)
      simp only []
      rw [if_pos hne, if_neg hnil]
      simp only [String.append_assoc]
  refine ⟨hbase, ?_⟩
  rw [hbase]
  refine ⟨"\n".intercalate
              (sd.signatureFields.map
                (fun f => "\"" ++ f ++ "\": " ++ (sd.evaluateField f r).1))
            ++ (if sd.signatureFields = [] then "" else "\n")
            ++ "\"@signature-params\": " ++ ("(" ++ SignatureInput.loop sd.signatureFields ""
            ++ ");created=" ++ toString sd.created ++ ";keyid=\"" ++ sd.publicKey
            ++ "\";"), ?_⟩
  simp only [SignatureData.SignatureInput, String.append_assoc]
  rfl

/-- Witness of C1: a field list with the empty field name, a derived field whose
value is empty (`@query`) and a header that the request does not carry. -/
theorem SignatureBase_exact_witness :
    (∀ f ∈ (exampleComposer ["", "@query", "x-missing", "@method"]).signatureFields,
        ((exampleComposer ["", "@query", "x-missing", "@method"]).evaluateField
          f exampleRequest).2 = none)
      ∧ (exampleComposer ["", "@query", "x-missing", "@method"]).SignatureBase exampleRequest
        = ("\"\": \n\"@query\": \n\"x-missing\": \n\"@method\": POST\n"
            ++ "\"@signature-params\": (\"\" \"@query\" \"x-missing\" \"@method\")"
            ++ ";created=1700000000;keyid=\"EKey\";alg=\"ed25519\"", none) := by
  have hok : ∀ f ∈ (exampleComposer ["", "@query", "x-missing", "@method"]).signatureFields,
        ((exampleComposer ["", "@query", "x-missing", "@method"]).evaluateField
          f exampleRequest).2 = none := by decide
  refine ⟨hok, ?_⟩
  rw [(SignatureBase_exact _ exampleRequest hok).1]
  decide

theorem SignatureBase_loop_error (sd : SignatureData) (r : Request) (fields : List String)
    (acc f : String) (hfind : fields.find? unknownDerivedField = some f) :
    SignatureBase.loop sd r fields acc = Sum.inl ("unknown field " ++ f) := by
  induction fields generalizing acc with
  | nil => simp at hfind
  | cons g rest ih =>
    cases hg : unknownDerivedField g with
    | true =>
      rw [List.find?_cons_of_pos _ hg] at hfind
      have hgf : g = f := by simpa using hfind
      rw [SignatureBase.loop, evaluateField_unknown sd g r hg, hgf]
    | false =>
      rw [List.find?_cons_of_neg _ (by simp [hg])] at hfind
      have hpair : sd.evaluateField g r = ((sd.evaluateField g r).1, none) := by
        rw [← evaluateField_known sd g r hg]
      rw [SignatureBase.loop, hpair]
      simp only []
      split_ifs
      · exact ih _ hfind
      · exact ih _ hfind

theorem SignatureBase_of_find_some (sd : SignatureData) (r : Request) (f : String)
    (hfind : sd.signatureFields.find? unknownDerivedField = some f) :
    sd.SignatureBase r = ("", some ("unknown field " ++ f)) := by
  rw [SignatureData.SignatureBase, SignatureBase_loop_error sd r _ _ f hfind]

theorem evaluateField_ok_of_find_none (sd : SignatureData) (r : Request) (fields : List String)
    (hfind : fields.find? unknownDerivedField = none) :
    ∀ f ∈ fields, (sd.evaluateField f r).2 = none := by
  intro f hf
  apply evaluateField_known
  have := List.find?_eq_none.mp hfind f hf
  simpa using this

theorem SignatureBase_of_find_none (sd : SignatureData) (r : Request)
    (hfind : sd.signatureFields.find? unknownDerivedField = none) :
    (sd.SignatureBase r).2 = none := by
  rw [SignatureData.SignatureBase,
    SignatureBase_loop_ok sd r _ (evaluateField_ok_of_find_none sd r _ hfind)]

theorem SignatureBase_error_iff (sd : SignatureData) (r : Request) :
    (sd.SignatureBase r).2 ≠ none ↔ ∃ f ∈ sd.signatureFields, unknownDerivedField f = true := by
  cases hfind : sd.signatureFields.find? unknownDerivedField with
  | none =>
    have h1 := SignatureBase_of_find_none sd r hfind
    have h2 := List.find?_eq_none.mp hfind
    constructor
    · intro h
      exact absurd h1 h
    · rintro ⟨f, hf, hu⟩
      exact absurd hu (h2 f hf)
  | some f =>
    have h1 := SignatureBase_of_find_some sd r f hfind
    constructor
    · intro _
      exact ⟨f, List.mem_of_find?_eq_some hfind, List.find?_some hfind⟩
    · intro _
      rw [h1]
      simp

/-- C3: `SignatureBase` returns an error exactly when some configured field is
an unrecognized derived field (it starts with `@` and is not one of the seven
recognized names); it then returns the empty string and the error that
`evaluateField` gives for the first such field in configured order, which is
`unknown field <name>`; otherwise it returns no error. -/
theorem SignatureBase_fails_iff (sd : SignatureData) (r : Request) :
    ((sd.SignatureBase r).2 ≠ none
        ↔ ∃ f ∈ sd.signatureFields,
            strings.HasPrefix f "@" = true ∧ f ∉ recognizedDerivedFields)
      ∧ (match sd.signatureFields.find? unknownDerivedField with
          | some f =>
            sd.SignatureBase r = ("", (sd.evaluateField f r).2)
              ∧ (sd.evaluateField f r).2 = some ("unknown field " ++ f)
          | none => (sd.SignatureBase r).2 = none) := by
  constructor
  · rw [SignatureBase_error_iff]
    simp only [unknownDerivedField_iff]
  · cases hfind : sd.signatureFields.find? unknownDerivedField with
    | none => exact SignatureBase_of_find_none sd r hfind
    | some f =>
      have hu : unknownDerivedField f = true := List.find?_some hfind
      simp only [evaluateField_unknown sd f r hu, SignatureBase_of_find_some sd r f hfind,
        and_self]

/-! ## Signing a request -/

theorem canonical_origin_date :
    textproto.CanonicalMIMEHeaderKey "origin-date" = "Origin-Date" := by decide

theorem canonical_signature_input :
    textproto.CanonicalMIMEHeaderKey "signature-input" = "Signature-Input" := by decide

theorem canonical_signature :
    textproto.CanonicalMIMEHeaderKey "signature" = "Signature" := by decide

theorem SignatureBase_error_indep (sd : SignatureData) (r q : Request) :
    (sd.SignatureBase r).2 = none ↔ (sd.SignatureBase q).2 = none := by
  have hr := SignatureBase_error_iff sd r
  have hq := SignatureBase_error_iff sd q
  constructor
  · intro h
    by_contra hne
    exact (hr.mpr (hq.mp hne)) h
  · intro h
    by_contra hne
    exact (hq.mpr (hr.mp hne)) h

theorem SignatureBase_trailer (sd : SignatureData) (r : Request)
    (hok : (sd.SignatureBase r).2 = none) :
    ∃ pre, (sd.SignatureBase r).1 = pre ++ "\"@signature-params\": " ++ sd.SignatureInput := by
  unfold SignatureData.SignatureBase at hok ⊢
  cases hloop : SignatureBase.loop sd r sd.signatureFields "" with
  | inl err =>
    rw [hloop] at hok
    cases hok
  | inr fieldString =>
    exact ⟨if fieldString ≠ "" then fieldString ++ "\n" else fieldString, by
      simp only [String.append_assoc]⟩

theorem SignRequest_of_base_ok (ext : Externals) (sd : SignatureData) (r : Request)
    (hok : (sd.SignatureBase
      { r with Header := r.Header.Add "origin-date" ext.originDate }).2 = none) :
    sd.SignRequest ext r
      = ({ r with
            Header :=
              ((r.Header.Add "origin-date" ext.originDate).Add "signature-input"
                  ("signify=" ++ sd.SignatureInput)).Add "signature"
                ("indexed=\"?0\";signify=\""
                  ++ ext.Encode (ext.Sign sd.privateKey (bytesOf (sd.SignatureBase
                      { r with Header := r.Header.Add "origin-date" ext.originDate }).1)) "0B"
                  ++ "\"") }, none) := by
  have hpair : sd.SignatureBase { r with Header := r.Header.Add "origin-date" ext.originDate }
      = ((sd.SignatureBase { r with Header := r.Header.Add "origin-date" ext.originDate }).1,
          none) := by
    rw [← hok]
  unfold SignatureData.SignRequest
  simp only []
  rw [hpair]

/-- C10: when signature-base construction succeeds on the request, `SignRequest`
returns no error and the header map it leaves has exactly one more value under
each of `Origin-Date` (the generated origin timestamp), `Signature-Input`
(`signify=` followed by `SignatureInput()`) and `Signature`
(`indexed="?0";signify="` + E + `"`), every other key being as before; E is
`cesr.Encode`, with the type indicator `0B`, of the `ed25519.Sign` signature
under the private key of the composer of the bytes of the signature base
computed on the request that already carries `origin-date`; that base is built
without error and ends with `"@signature-params": ` followed by the same
`SignatureInput()` that `Signature-Input` carries. -/
theorem SignRequest_success (ext : Externals) (sd : SignatureData) (r : Request)
    (hok : (sd.SignatureBase r).2 = none) :
    (sd.SignRequest ext r).2 = none
      ∧ (sd.SignatureBase { r with Header := r.Header.Add "origin-date" ext.originDate }).2 = none
      ∧ (∀ k, (sd.SignRequest ext r).1.Header k
          = if k = "Origin-Date" then r.Header k ++ [ext.originDate]
            else if k = "Signature-Input" then r.Header k ++ ["signify=" ++ sd.SignatureInput]
            else if k = "Signature" then
              r.Header k ++ ["indexed=\"?0\";signify=\""
                ++ ext.Encode (ext.Sign sd.privateKey (bytesOf (sd.SignatureBase
                    { r with Header := r.Header.Add "origin-date" ext.originDate }).1)) "0B"
                ++ "\""]
            else r.Header k)
      ∧ ∃ pre, (sd.SignatureBase { r with Header := r.Header.Add "origin-date" ext.originDate }).1
          = pre ++ "\"@signature-params\": " ++ sd.SignatureInput := by
  have hok1 : (sd.SignatureBase
      { r with Header := r.Header.Add "origin-date" ext.originDate }).2 = none :=
    (SignatureBase_error_indep sd r _).mp hok
  refine ⟨?_, hok1, ?_, SignatureBase_trailer sd _ hok1⟩
  · rw [SignRequest_of_base_ok ext sd r hok1]
  · intro k
    rw [SignRequest_of_base_ok ext sd r hok1]
    simp only [Header.Add, canonical_origin_date, canonical_signature_input, canonical_signature]
    by_cases h1 : k = "Origin-Date"
    · subst h1
      simp
    · by_cases h2 : k = "Signature-Input"
      · subst h2
        simp
      · by_cases h3 : k = "Signature"
        · subst h3
          simp
        · simp [h1, h2, h3]

/-- Witness of C10: the example request signed over the field list of the
wrapper. -/
theorem SignRequest_success_witness :
    ((exampleComposer signatureFields).SignatureBase exampleRequest).2 = none
      ∧ ((exampleComposer signatureFields).SignRequest exampleExternals exampleRequest).2 = none
      ∧ ((exampleComposer signatureFields).SignRequest exampleExternals
            exampleRequest).1.Header "Origin-Date"
          = ["2024-01-02T03:04:05.000006+00:00"] :=
  ⟨by decide,
    (SignRequest_success exampleExternals (exampleComposer signatureFields) exampleRequest
      (by decide)).1,
    ((SignRequest_success exampleExternals (exampleComposer signatureFields) exampleRequest
      (by decide)).2.2.1 "Origin-Date").trans (by decide)⟩

theorem SignRequest_of_base_error (ext : Externals) (sd : SignatureData) (r : Request)
    (err : error)
    (herr : (sd.SignatureBase
      { r with Header := r.Header.Add "origin-date" ext.originDate }).2 = some err) :
    sd.SignRequest ext r
      = ({ r with Header := r.Header.Add "origin-date" ext.originDate }, some err) := by
  have hpair : sd.SignatureBase { r with Header := r.Header.Add "origin-date" ext.originDate }
      = ((sd.SignatureBase { r with Header := r.Header.Add "origin-date" ext.originDate }).1,
          some err) := by
    rw [← herr]
  unfold SignatureData.SignRequest
  simp only []
  rw [hpair]

theorem Header_Add_origin_date (h : Header) (value k : String) :
    (h.Add "origin-date" value) k = if k = "Origin-Date" then h k ++ [value] else h k := by
  simp only [Header.Add, canonical_origin_date]

/-- C11: when the field list holds an unrecognized derived field, `SignRequest`
returns the error of the base construction (`unknown field <name>` for the first
such field), the values under `Signature-Input` and `Signature` are as before
the call, and the generated origin timestamp has been appended under
`Origin-Date`; no other key changes. -/
theorem SignRequest_failure (ext : Externals) (sd : SignatureData) (r : Request)
    (hbad : ∃ f ∈ sd.signatureFields,
      strings.HasPrefix f "@" = true ∧ f ∉ recognizedDerivedFields) :
    (sd.SignRequest ext r).2
        = (sd.SignatureBase { r with Header := r.Header.Add "origin-date" ext.originDate }).2
      ∧ (∃ f, sd.signatureFields.find? unknownDerivedField = some f
          ∧ (sd.SignRequest ext r).2 = some ("unknown field " ++ f))
      ∧ (sd.SignRequest ext r).1.Header "Signature-Input" = r.Header "Signature-Input"
      ∧ (sd.SignRequest ext r).1.Header "Signature" = r.Header "Signature"
      ∧ (sd.SignRequest ext r).1.Header "Origin-Date" = r.Header "Origin-Date" ++ [ext.originDate]
      ∧ ∀ k, k ≠ "Origin-Date" → (sd.SignRequest ext r).1.Header k = r.Header k := by
  have hex : ∃ f ∈ sd.signatureFields, unknownDerivedField f = true := by
    obtain ⟨f, hf, hu⟩ := hbad
    exact ⟨f, hf, (unknownDerivedField_iff f).mpr hu⟩
  cases hfind : sd.signatureFields.find? unknownDerivedField with
  | none =>
    obtain ⟨f, hf, hu⟩ := hex
    exact absurd hu (List.find?_eq_none.mp hfind f hf)
  | some f =>
    have hbase := SignatureBase_of_find_some sd
      { r with Header := r.Header.Add "origin-date" ext.originDate } f hfind
    have herr : (sd.SignatureBase
        { r with Header := r.Header.Add "origin-date" ext.originDate }).2
          = some ("unknown field " ++ f) := by
      rw [hbase]
    have hsign := SignRequest_of_base_error ext sd r _ herr
    refine ⟨?_, ⟨f, rfl, ?_⟩, ?_, ?_, ?_, ?_⟩
    · rw [hsign, herr]
    · rw [hsign]
    · rw [hsign]
      simp only [Header_Add_origin_date]
      rw [if_neg (by decide)]
    · rw [hsign]
      simp only [Header_Add_origin_date]
      rw [if_neg (by decide)]
    · rw [hsign]
      exact (Header_Add_origin_date r.Header ext.originDate "Origin-Date").trans (if_pos rfl)
    · intro k hk
      rw [hsign]
      simp only [Header_Add_origin_date]
      rw [if_neg hk]

/-- Witness of C11: the example request signed over a field list that holds
`@bogus`. -/
theorem SignRequest_failure_witness :
    (∃ f ∈ (exampleComposer ["@method", "@bogus", "@nope"]).signatureFields,
        strings.HasPrefix f "@" = true ∧ f ∉ recognizedDerivedFields)
      ∧ ((exampleComposer ["@method", "@bogus", "@nope"]).SignRequest exampleExternals
            exampleRequest).2 = some "unknown field @bogus"
      ∧ ((exampleComposer ["@method", "@bogus", "@nope"]).SignRequest exampleExternals
            exampleRequest).1.Header "Origin-Date" = ["2024-01-02T03:04:05.000006+00:00"] :=
  ⟨⟨"@bogus", by decide, by decide, by decide⟩,
    (SignRequest_failure exampleExternals (exampleComposer ["@method", "@bogus", "@nope"])
      exampleRequest ⟨"@bogus", by decide, by decide, by decide⟩).1.trans (by decide),
    (SignRequest_failure exampleExternals (exampleComposer ["@method", "@bogus", "@nope"])
      exampleRequest ⟨"@bogus", by decide, by decide, by decide⟩).2.2.2.2.1.trans (by decide)⟩

/-- C13: whether `SignRequest` succeeds or fails, the method and the URL of the
request are as before, and under every key the values present before the call
are still there, unchanged and in their order, followed by what the call
appended; the call appends nothing outside `Origin-Date`, `Signature-Input` and
`Signature`. -/
theorem SignRequest_frame (ext : Externals) (sd : SignatureData) (r : Request) :
    (sd.SignRequest ext r).1.Method = r.Method
      ∧ (sd.SignRequest ext r).1.URL = r.URL
      ∧ ∀ k, ∃ added, (sd.SignRequest ext r).1.Header k = r.Header k ++ added
          ∧ (k ∉ ["Origin-Date", "Signature-Input", "Signature"] → added = []) := by
  cases herr : (sd.SignatureBase
      { r with Header := r.Header.Add "origin-date" ext.originDate }).2 with
  | some err =>
    rw [SignRequest_of_base_error ext sd r err herr]
    refine ⟨rfl, rfl, ?_⟩
    intro k
    simp only [Header_Add_origin_date]
    by_cases h1 : k = "Origin-Date"
    · exact ⟨[ext.originDate], by rw [if_pos h1], fun hk => absurd (by simp [h1]) hk⟩
    · exact ⟨[], by rw [if_neg h1, List.append_nil], fun _ => rfl⟩
  | none =>
    rw [SignRequest_of_base_ok ext sd r herr]
    refine ⟨rfl, rfl, ?_⟩
    intro k
    simp only [Header.Add, canonical_origin_date, canonical_signature_input, canonical_signature]
    by_cases h1 : k = "Origin-Date"
    · subst h1
      exact ⟨[ext.originDate], by simp, fun hk => absurd (by simp) hk⟩
    · by_cases h2 : k = "Signature-Input"
      · subst h2
        exact ⟨["signify=" ++ sd.SignatureInput], by simp, fun hk => absurd (by simp) hk⟩
      · by_cases h3 : k = "Signature"
        · subst h3
          exact ⟨_, by simp; rfl, fun hk => absurd (by simp) hk⟩
        · exact ⟨[], by simp [h1, h2, h3], fun _ => rfl⟩

/-! ## The origin date in the signed base -/

theorem evaluateField_ok_of_base_ok (sd : SignatureData) (r q : Request)
    (hok : (sd.SignatureBase r).2 = none) :
    ∀ f ∈ sd.signatureFields, (sd.evaluateField f q).2 = none := by
  intro f hf
  apply evaluateField_known
  cases hu : unknownDerivedField f with
  | false => rfl
  | true => exact absurd hok ((SignatureBase_error_iff sd r).mpr ⟨f, hf, hu⟩)

theorem SignatureBase_of_fields_ok (sd : SignatureData) (r : Request)
    (hok : ∀ f ∈ sd.signatureFields, (sd.evaluateField f r).2 = none) :
    sd.SignatureBase r
      = ("\n".intercalate
            (sd.signatureFields.map
              (fun f => "\"" ++ f ++ "\": " ++ (sd.evaluateField f r).1))
          ++ (if sd.signatureFields = [] then "" else "\n")
          ++ "\"@signature-params\": " ++ sd.SignatureInput, none) := by
  rw [SignatureData.SignatureBase, SignatureBase_loop_ok sd r _ hok]
  have hiff := intercalate_lines_eq_empty_iff "\n" sd.signatureFields
    (fun f => "\"" ++ f ++ "\": " ++ (sd.evaluateField f r).1)
    (fun f => append_ne_empty_left _ (quoted_ne_empty f "\": "))
  by_cases hnil : sd.signatureFields = []
  · simp [hnil, String.intercalate]
  · have hne : "\n".intercalate
        (sd.signatureFields.map
          (fun f => "\"" ++ f ++ "\": " ++ (sd.evaluateField f r).1)) ≠ "" :=
      fun h => hnil (hiff.mp h)
    simp only []
    rw [if_pos hne, if_neg hnil]
    simp only [String.append_assoc]

theorem evaluateField_origin_date_fresh (ext : Externals) (sd : SignatureData) (r : Request)
    (hfresh : r.Header "Origin-Date" = []) :
    sd.evaluateField "origin-date"
        { r with Header := r.Header.Add "origin-date" ext.originDate }
      = (ext.originDate, none) := by
  rw [evaluateField_of_not_derived sd "origin-date" _ (by decide)]
  simp only [Header.Get, Header.Add, canonical_origin_date, if_true, hfresh, List.nil_append]

/-- C12, as the code has it: when the field list holds `origin-date`, base
construction succeeds and the request carries no value under `Origin-Date`
before the call, the base that `SignRequest` signs has the line
`"origin-date": <generated origin timestamp>`, and that timestamp is the one
value under `Origin-Date` after the call. -/
theorem SignRequest_origin_date_line (ext : Externals) (sd : SignatureData) (r : Request)
    (horigin : "origin-date" ∈ sd.signatureFields)
    (hok : (sd.SignatureBase r).2 = none)
    (hfresh : r.Header "Origin-Date" = []) :
    sd.evaluateField "origin-date"
          { r with Header := r.Header.Add "origin-date" ext.originDate }
        = (ext.originDate, none)
      ∧ sd.SignatureBase { r with Header := r.Header.Add "origin-date" ext.originDate }
        = ("\n".intercalate
              (sd.signatureFields.map
                (fun f => "\"" ++ f ++ "\": " ++ (sd.evaluateField f
                  { r with Header := r.Header.Add "origin-date" ext.originDate }).1))
            ++ "\n" ++ "\"@signature-params\": " ++ sd.SignatureInput, none)
      ∧ "\"" ++ "origin-date" ++ "\": " ++ ext.originDate
          ∈ sd.signatureFields.map
              (fun f => "\"" ++ f ++ "\": " ++ (sd.evaluateField f
                { r with Header := r.Header.Add "origin-date" ext.originDate }).1)
      ∧ (sd.SignRequest ext r).1.Header "Origin-Date" = [ext.originDate]
      ∧ (sd.SignRequest ext r).1.Header "Signature"
          = r.Header "Signature" ++ ["indexed=\"?0\";signify=\""
              ++ ext.Encode (ext.Sign sd.privateKey (bytesOf (sd.SignatureBase
                  { r with Header := r.Header.Add "origin-date" ext.originDate }).1)) "0B"
              ++ "\""] := by
  have hval := evaluateField_origin_date_fresh ext sd r hfresh
  have hfields := evaluateField_ok_of_base_ok sd r
    { r with Header := r.Header.Add "origin-date" ext.originDate } hok
  have hok1 : (sd.SignatureBase
      { r with Header := r.Header.Add "origin-date" ext.originDate }).2 = none :=
    (SignatureBase_error_indep sd r _).mp hok
  have hne : sd.signatureFields ≠ [] := fun h => by
    rw [h] at horigin
    cases horigin
  refine ⟨hval, ?_, ?_, ?_, ?_⟩
  · rw [SignatureBase_of_fields_ok sd _ hfields, if_neg hne]
  · refine List.mem_map.mpr ⟨"origin-date", horigin, ?_⟩
    rw [hval]
  · rw [SignRequest_of_base_ok ext sd r hok1]
    simp only [Header.Add, canonical_origin_date, canonical_signature_input, canonical_signature]
    simp [hfresh]
  · rw [SignRequest_of_base_ok ext sd r hok1]
    simp only [Header.Add, canonical_origin_date, canonical_signature_input, canonical_signature]
    simp

/-- Witness of C12 as amended: the example request, which carries no
`Origin-Date`, signed over the field list of the wrapper. -/
theorem SignRequest_origin_date_line_witness :
    "origin-date" ∈ (exampleComposer signatureFields).signatureFields
      ∧ ((exampleComposer signatureFields).SignatureBase exampleRequest).2 = none
      ∧ exampleRequest.Header "Origin-Date" = []
      ∧ (exampleComposer signatureFields).evaluateField "origin-date"
            { exampleRequest with
              Header := exampleRequest.Header.Add "origin-date" exampleExternals.originDate }
          = ("2024-01-02T03:04:05.000006+00:00", none) :=
  ⟨by decide, by decide, by decide,
    (SignRequest_origin_date_line exampleExternals (exampleComposer signatureFields)
      exampleRequest (by decide) (by decide) (by decide)).1⟩

/-- C12, counterexample: a request that already carries `Origin-Date: 1999-12-31`
keeps that value first, so the `origin-date` line of the base that `SignRequest`
builds and signs is `"origin-date": 1999-12-31`, not the timestamp that the call
generated and appended. -/
theorem SignRequest_origin_date_line_stale :
    "origin-date" ∈ (exampleComposer ["origin-date"]).signatureFields
      ∧ ((exampleComposer ["origin-date"]).SignRequest exampleExternals datedRequest).2 = none
      ∧ ((exampleComposer ["origin-date"]).SignRequest exampleExternals
            datedRequest).1.Header "Origin-Date"
          = ["1999-12-31", "2024-01-02T03:04:05.000006+00:00"]
      ∧ (exampleComposer ["origin-date"]).SignatureBase
            { datedRequest with
              Header := datedRequest.Header.Add "origin-date" exampleExternals.originDate }
          = ("\"origin-date\": 1999-12-31\n\"@signature-params\": (\"origin-date\")"
              ++ ";created=1700000000;keyid=\"EKey\";alg=\"ed25519\"", none)
      ∧ ((exampleComposer ["origin-date"]).evaluateField "origin-date"
            { datedRequest with
              Header := datedRequest.Header.Add "origin-date" exampleExternals.originDate }).1
          ≠ exampleExternals.originDate := by
  decide

/-! ## Determinism of the signature base -/

theorem evaluateField_snd (sd : SignatureData) (field : String) (r : Request) :
    (sd.evaluateField field r).2
      = if unknownDerivedField field = true then some ("unknown field " ++ field) else none := by
  cases hu : unknownDerivedField field with
  | true => rw [evaluateField_unknown sd field r hu]; rfl
  | false => rw [evaluateField_known sd field r hu]; rfl

theorem evaluateField_congr (sd1 sd2 : SignatureData) (r1 r2 : Request) (field : String)
    (hv : (sd1.evaluateField field r1).1 = (sd2.evaluateField field r2).1) :
    sd1.evaluateField field r1 = sd2.evaluateField field r2 :=
  Prod.ext hv ((evaluateField_snd sd1 field r1).trans (evaluateField_snd sd2 field r2).symm)

theorem SignatureBase_loop_congr (sd1 sd2 : SignatureData) (r1 r2 : Request)
    (fields : List String) (acc : String)
    (hv : ∀ f ∈ fields, (sd1.evaluateField f r1).1 = (sd2.evaluateField f r2).1) :
    SignatureBase.loop sd1 r1 fields acc = SignatureBase.loop sd2 r2 fields acc := by
  induction fields generalizing acc with
  | nil => rfl
  | cons f rest ih =>
    have hf := evaluateField_congr sd1 sd2 r1 r2 f (hv f (List.mem_cons_self _ _))
    have hrest : ∀ g ∈ rest, (sd1.evaluateField g r1).1 = (sd2.evaluateField g r2).1 :=
      fun g hg => hv g (List.mem_cons_of_mem _ hg)
    rw [SignatureBase.loop, SignatureBase.loop, hf]
    cases sd2.evaluateField f r2 with
    | mk value err =>
      cases err with
      | some e => rfl
      | none =>
        simp only []
        split_ifs
        · exact ih _ hrest
        · exact ih _ hrest

theorem SignatureInput_congr (sd1 sd2 : SignatureData)
    (hfields : sd1.signatureFields = sd2.signatureFields)
    (hcreated : sd1.created = sd2.created)
    (hkey : sd1.publicKey = sd2.publicKey) :
    sd1.SignatureInput = sd2.SignatureInput := by
  simp only [SignatureData.SignatureInput, hfields, hcreated, hkey]

/-- C14: two composers with the same field list, creation timestamp and key
identifier, on two requests on which every configured field evaluates to the
same value, return the same signature base (string and error); nothing else of
the requests or of the composers enters the result. -/
theorem SignatureBase_deterministic (sd1 sd2 : SignatureData) (r1 r2 : Request)
    (hfields : sd1.signatureFields = sd2.signatureFields)
    (hcreated : sd1.created = sd2.created)
    (hkey : sd1.publicKey = sd2.publicKey)
    (hv : ∀ f ∈ sd1.signatureFields, (sd1.evaluateField f r1).1 = (sd2.evaluateField f r2).1) :
    sd1.SignatureBase r1 = sd2.SignatureBase r2 := by
  unfold SignatureData.SignatureBase
  rw [SignatureBase_loop_congr sd1 sd2 r1 r2 _ "" hv,
    SignatureInput_congr sd1 sd2 hfields hcreated hkey, hfields]

/-- Witness of C14: two composers that differ in their private key, and two
requests that differ in the path, the host and a header, none of which is in the
field list. -/
theorem SignatureBase_deterministic_witness :
    (exampleComposer ["@method", "signify-resource", "@query"]).signatureFields
        = ({ exampleComposer ["@method", "signify-resource", "@query"] with
              privateKey := List.replicate 64 9 }).signatureFields
      ∧ (∀ f ∈ (exampleComposer ["@method", "signify-resource", "@query"]).signatureFields,
          ((exampleComposer ["@method", "signify-resource", "@query"]).evaluateField f
              exampleRequest).1
            = (({ exampleComposer ["@method", "signify-resource", "@query"] with
                  privateKey := List.replicate 64 9 }).evaluateField f
                { Method := "POST"
                  URL := { exampleRequest.URL with Path := "/other", Host := "example.org" }
                  Header := exampleRequest.Header.Add "x-other" "1" }).1)
      ∧ (exampleComposer ["@method", "signify-resource", "@query"]).SignatureBase exampleRequest
          = ({ exampleComposer ["@method", "signify-resource", "@query"] with
                privateKey := List.replicate 64 9 }).SignatureBase
              { Method := "POST"
                URL := { exampleRequest.URL with Path := "/other", Host := "example.org" }
                Header := exampleRequest.Header.Add "x-other" "1" } :=
  ⟨rfl, by decide,
    SignatureBase_deterministic _ _ _ _ rfl rfl rfl (by decide)⟩

/-! ## Injectivity of the signature base -/

theorem split_at_separator (c : Char) (a b x y : List Char) (ha : c ∉ a) (hb : c ∉ b)
    (h : a ++ c :: x = b ++ c :: y) : a = b ∧ x = y := by
  induction a generalizing b with
  | nil =>
    cases b with
    | nil =>
      simp only [List.nil_append, List.cons.injEq, true_and] at h
      exact ⟨rfl, h⟩
    | cons d b1 =>
      simp only [List.nil_append, List.cons_append, List.cons.injEq] at h
      exact absurd (h.1 ▸ List.mem_cons_self d b1) hb
  | cons e a1 ih =>
    cases b with
    | nil =>
      simp only [List.nil_append, List.cons_append, List.cons.injEq] at h
      exact absurd (h.1 ▸ List.mem_cons_self e a1) ha
    | cons d b1 =>
      simp only [List.cons_append, List.cons.injEq] at h
      have ha1 : c ∉ a1 := fun hm => ha (List.mem_cons_of_mem _ hm)
      have hb1 : c ∉ b1 := fun hm => hb (List.mem_cons_of_mem _ hm)
      obtain ⟨hab, hxy⟩ := ih b1 ha1 hb1 h.2
      exact ⟨by rw [h.1, hab], hxy⟩

theorem lines_injective (c : Char) (q v1 v2 : String → List Char) (tail : List Char)
    (fields : List String)
    (hc : ∀ f ∈ fields, c ∉ v1 f ∧ c ∉ v2 f)
    (h : fields.flatMap (fun f => q f ++ v1 f ++ [c]) ++ tail
          = fields.flatMap (fun f => q f ++ v2 f ++ [c]) ++ tail) :
    ∀ f ∈ fields, v1 f = v2 f := by
  induction fields with
  | nil =>
    intro f hf
    cases hf
  | cons g rest ih =>
    simp only [List.flatMap_cons, List.append_assoc, List.singleton_append] at h
    have h1 := List.append_cancel_left h
    obtain ⟨hc1, hc2⟩ := hc g (List.mem_cons_self _ _)
    obtain ⟨hg, hrest⟩ := split_at_separator c _ _ _ _ hc1 hc2 h1
    have hrest1 : ∀ f ∈ rest, c ∉ v1 f ∧ c ∉ v2 f :=
      fun f hf => hc f (List.mem_cons_of_mem _ hf)
    have ih1 := ih hrest1 (by
      simp only [List.append_assoc, List.singleton_append]
      exact hrest)
    intro f hf
    rcases List.mem_cons.mp hf with hfg | hfr
    · rw [hfg]
      exact hg
    · exact ih1 f hfr

theorem intercalate_go_data (acc sep : String) (l : List String) :
    (String.intercalate.go acc sep l).data ++ sep.data
      = acc.data ++ sep.data ++ l.flatMap (fun s => s.data ++ sep.data) := by
  induction l generalizing acc with
  | nil => simp [String.intercalate.go]
  | cons a rest ih =>
    simp only [String.intercalate.go, ih, String.data_append, List.flatMap_cons,
      List.append_assoc]

theorem intercalate_data (sep : String) (l : List String) :
    (sep.intercalate l ++ (if l = [] then "" else sep)).data
      = l.flatMap (fun s => s.data ++ sep.data) := by
  cases l with
  | nil => rfl
  | cons a rest =>
    rw [if_neg (List.cons_ne_nil _ _), String.data_append]
    simp only [String.intercalate, intercalate_go_data, List.flatMap_cons, List.append_assoc]

theorem SignatureBase_data (sd : SignatureData) (r : Request)
    (hok : ∀ f ∈ sd.signatureFields, (sd.evaluateField f r).2 = none) :
    (sd.SignatureBase r).1.data
      = sd.signatureFields.flatMap
          (fun f => ("\"" ++ f ++ "\": ").data ++ (sd.evaluateField f r).1.data
            ++ [Char.ofNat 10])
        ++ ("\"@signature-params\": " ++ sd.SignatureInput).data := by
  rw [SignatureBase_of_fields_ok sd r hok]
  simp only []
  have hmap : (if sd.signatureFields = [] then "" else "\n")
      = (if sd.signatureFields.map
            (fun f => "\"" ++ f ++ "\": " ++ (sd.evaluateField f r).1) = [] then "" else "\n") := by
    by_cases hnil : sd.signatureFields = []
    · simp [hnil]
    · simp [hnil]
  rw [hmap, String.append_assoc, String.data_append, intercalate_data, List.flatMap_map]
  congr 1

theorem lines_count_le (c : Char) (q v1 v2 : String → List Char) (fields : List String)
    (hc : ∀ f ∈ fields, c ∉ v1 f) :
    List.count c (fields.flatMap (fun f => q f ++ v1 f ++ [c]))
      ≤ List.count c (fields.flatMap (fun f => q f ++ v2 f ++ [c])) := by
  induction fields with
  | nil => simp
  | cons g rest ih =>
    have hg : List.count c (v1 g) = 0 := List.count_eq_zero.mpr (hc g (List.mem_cons_self _ _))
    have ih1 := ih (fun f hf => hc f (List.mem_cons_of_mem _ hf))
    simp only [List.flatMap_cons, List.count_append, hg]
    omega

theorem lines_clean_of_count_le (c : Char) (q v1 v2 : String → List Char)
    (fields : List String)
    (hc : ∀ f ∈ fields, c ∉ v1 f)
    (hle : List.count c (fields.flatMap (fun f => q f ++ v2 f ++ [c]))
      ≤ List.count c (fields.flatMap (fun f => q f ++ v1 f ++ [c]))) :
    ∀ f ∈ fields, c ∉ v2 f := by
  induction fields with
  | nil =>
    intro f hf
    cases hf
  | cons g rest ih =>
    have hg : List.count c (v1 g) = 0 := List.count_eq_zero.mpr (hc g (List.mem_cons_self _ _))
    have hrest : ∀ f ∈ rest, c ∉ v1 f := fun f hf => hc f (List.mem_cons_of_mem _ hf)
    have hle1 := lines_count_le c q v1 v2 rest hrest
    simp only [List.flatMap_cons, List.count_append, hg] at hle
    have hzero : List.count c (v2 g) = 0 := by omega
    have ih1 := ih hrest (by omega)
    intro f hf
    rcases List.mem_cons.mp hf with hfg | hfr
    · rw [hfg]
      exact List.count_eq_zero.mp hzero
    · exact ih1 f hfr

theorem lines_injective_one_sided (c : Char) (q v1 v2 : String → List Char)
    (tail : List Char) (fields : List String)
    (hc : ∀ f ∈ fields, c ∉ v1 f)
    (h : fields.flatMap (fun f => q f ++ v1 f ++ [c]) ++ tail
          = fields.flatMap (fun f => q f ++ v2 f ++ [c]) ++ tail) :
    ∀ f ∈ fields, v1 f = v2 f := by
  have hcount := congrArg (List.count c) h
  simp only [List.count_append] at hcount
  have hc2 := lines_clean_of_count_le c q v1 v2 fields hc (by omega)
  exact lines_injective c q v1 v2 tail fields (fun f hf => ⟨hc f hf, hc2 f hf⟩) h

/-- C15, as the code has it: for one composer and two requests on which base
construction succeeds, when on at least one of the two requests no configured
field evaluates to a value that holds a line feed, if the value of at least one
configured field differs between the two requests then the two signature bases
differ. -/
theorem SignatureBase_injective (sd : SignatureData) (r1 r2 : Request)
    (hok1 : (sd.SignatureBase r1).2 = none)
    (hok2 : (sd.SignatureBase r2).2 = none)
    (hline : (∀ f ∈ sd.signatureFields, Char.ofNat 10 ∉ (sd.evaluateField f r1).1.data)
      ∨ (∀ f ∈ sd.signatureFields, Char.ofNat 10 ∉ (sd.evaluateField f r2).1.data))
    (hdiff : ∃ f ∈ sd.signatureFields,
      (sd.evaluateField f r1).1 ≠ (sd.evaluateField f r2).1) :
    (sd.SignatureBase r1).1 ≠ (sd.SignatureBase r2).1 := by
  intro heq
  obtain ⟨f, hf, hne⟩ := hdiff
  apply hne
  have hd := congrArg String.data heq
  rw [SignatureBase_data sd r1 (evaluateField_ok_of_base_ok sd r1 r1 hok1),
    SignatureBase_data sd r2 (evaluateField_ok_of_base_ok sd r2 r2 hok2)] at hd
  rcases hline with h1 | h2
  · have hall := lines_injective_one_sided (Char.ofNat 10)
      (fun g => ("\"" ++ g ++ "\": ").data)
      (fun g => (sd.evaluateField g r1).1.data) (fun g => (sd.evaluateField g r2).1.data)
      _ sd.signatureFields h1 hd
    exact String.ext (hall f hf)
  · have hall := lines_injective_one_sided (Char.ofNat 10)
      (fun g => ("\"" ++ g ++ "\": ").data)
      (fun g => (sd.evaluateField g r2).1.data) (fun g => (sd.evaluateField g r1).1.data)
      _ sd.signatureFields h2 hd.symm
    exact String.ext (hall f hf).symm

/-- Witness of C15 as amended: the example request, whose values hold no line
feed, against the request whose path holds one, signed over `@method` and
`@path`. -/
theorem SignatureBase_injective_witness :
    ((exampleComposer ["@method", "@path"]).SignatureBase exampleRequest).2 = none
      ∧ ((exampleComposer ["@method", "@path"]).SignatureBase splitPathRequest).2 = none
      ∧ (∀ f ∈ (exampleComposer ["@method", "@path"]).signatureFields,
          Char.ofNat 10 ∉ ((exampleComposer ["@method", "@path"]).evaluateField f
            exampleRequest).1.data)
      ∧ Char.ofNat 10 ∈ ((exampleComposer ["@method", "@path"]).evaluateField "@path"
            splitPathRequest).1.data
      ∧ ((exampleComposer ["@method", "@path"]).SignatureBase exampleRequest).1
          ≠ ((exampleComposer ["@method", "@path"]).SignatureBase splitPathRequest).1 :=
  ⟨by decide, by decide, by decide, by decide,
    SignatureBase_injective (exampleComposer ["@method", "@path"]) exampleRequest
      splitPathRequest (by decide) (by decide) (Or.inl (by decide))
      ⟨"@path", by decide, by decide⟩⟩

/-- C15, counterexample: over the field list `@path`, `x-b`, the request with the
path `/p<LF>"x-b": 2` and the header `x-b: 3`, and the request with the path `/p`
and the header `x-b: 2<LF>"x-b": 3`, both give a base without error, differ in
the value of `@path` and of `x-b`, and have the same signature base. -/
theorem SignatureBase_not_injective :
    ((exampleComposer ["@path", "x-b"]).SignatureBase splitPathRequest).2 = none
      ∧ ((exampleComposer ["@path", "x-b"]).SignatureBase splitHeaderRequest).2 = none
      ∧ ((exampleComposer ["@path", "x-b"]).evaluateField "@path" splitPathRequest).1
          ≠ ((exampleComposer ["@path", "x-b"]).evaluateField "@path" splitHeaderRequest).1
      ∧ ((exampleComposer ["@path", "x-b"]).evaluateField "x-b" splitPathRequest).1
          ≠ ((exampleComposer ["@path", "x-b"]).evaluateField "x-b" splitHeaderRequest).1
      ∧ (exampleComposer ["@path", "x-b"]).SignatureBase splitPathRequest
          = (exampleComposer ["@path", "x-b"]).SignatureBase splitHeaderRequest := by
  decide

/-! ## The request URI -/

theorem EscapedPath_of_plain (u : URL) (hraw : u.RawPath = "")
    (hplain : url.escape u.Path = u.Path) : u.EscapedPath = u.Path := by
  unfold URL.EscapedPath
  rw [hraw]
  simp only [ne_eq, not_true_eq_false, decide_False, Bool.false_and, Bool.false_eq_true,
    if_false]
  split_ifs with hstar
  · exact hstar.symm
  · exact hplain

/-- C16, as the code has it: for a URL with an empty `Opaque` and `ForceQuery`
unset, `evaluateField("@target-uri")` returns, with no error, the escaped path of
the URL (`EscapedPath()`), or `/` when that is empty, followed by `?` and the raw
query when the raw query is not empty; this is the path followed by the query
whenever the path is not empty, needs no escaping and `RawPath` is empty. -/
theorem evaluateField_target_uri (sd : SignatureData) (r : Request)
    (hopq : r.URL.Opaque = "") (hforce : r.URL.ForceQuery = false) :
    sd.evaluateField "@target-uri" r
        = ((if r.URL.EscapedPath = "" then "/" else r.URL.EscapedPath)
            ++ (if r.URL.RawQuery = "" then "" else "?" ++ r.URL.RawQuery), none)
      ∧ (r.URL.RawPath = "" → r.URL.Path ≠ "" → url.escape r.URL.Path = r.URL.Path →
          sd.evaluateField "@target-uri" r = (spec_targetURI r.URL, none)) := by
  have hgen : sd.evaluateField "@target-uri" r
        = ((if r.URL.EscapedPath = "" then "/" else r.URL.EscapedPath)
            ++ (if r.URL.RawQuery = "" then "" else "?" ++ r.URL.RawQuery), none) := by
    have e : sd.evaluateField "@target-uri" r = (r.URL.RequestURI, none) := rfl
    rw [e, URL.RequestURI, hopq, hforce]
    by_cases hq : r.URL.RawQuery = ""
    · simp [hq]
    · simp [hq, String.append_assoc]
  refine ⟨hgen, ?_⟩
  intro hraw hpath hplain
  rw [hgen, EscapedPath_of_plain r.URL hraw hplain, if_neg hpath, spec_targetURI]
  by_cases hq : r.URL.RawQuery = ""
  · simp [hq]
  · simp [hq, String.append_assoc]

/-- Witness of C16 as amended: the example request, whose path is `/api/items`. -/
theorem evaluateField_target_uri_witness :
    exampleRequest.URL.Opaque = "" ∧ exampleRequest.URL.ForceQuery = false
      ∧ (exampleComposer ["@target-uri"]).evaluateField "@target-uri" exampleRequest
          = ("/api/items", none) :=
  ⟨rfl, rfl,
    (evaluateField_target_uri (exampleComposer ["@target-uri"]) exampleRequest rfl rfl).1.trans
      (by decide)⟩

/-- C16, counterexample: for `https://example.com?a=b`, whose path is empty, the
value of `@target-uri` is `/?a=b`, where the path followed by `?` and the raw
query is `?a=b`. -/
theorem evaluateField_target_uri_empty_path :
    (exampleComposer ["@target-uri"]).evaluateField "@target-uri" emptyPathRequest
        = ("/?a=b", none)
      ∧ emptyPathRequest.URL.Path = ""
      ∧ spec_targetURI emptyPathRequest.URL = "?a=b"
      ∧ ((exampleComposer ["@target-uri"]).evaluateField "@target-uri" emptyPathRequest).1
          ≠ spec_targetURI emptyPathRequest.URL := by
  decide

/-! ## The composer across signings -/

theorem SignRequest_signature_input (ext : Externals) (sd : SignatureData) (r : Request)
    (hok : (sd.SignatureBase r).2 = none) :
    (sd.SignRequest ext r).2 = none
      ∧ (sd.SignRequest ext r).1.Header "Signature-Input"
          = r.Header "Signature-Input" ++ ["signify=" ++ sd.SignatureInput] := by
  have hok1 : (sd.SignatureBase
      { r with Header := r.Header.Add "origin-date" ext.originDate }).2 = none :=
    (SignatureBase_error_indep sd r _).mp hok
  rw [SignRequest_of_base_ok ext sd r hok1]
  refine ⟨rfl, ?_⟩
  simp only [Header.Add, canonical_origin_date, canonical_signature_input, canonical_signature]
  simp

/-- C17: a composer built by `NewSignatureData` keeps the field list, the
creation timestamp and the key identifier it was built with, and `SignRequest`
only reads it: its `SignatureInput()` is the string made of these three, and two
successive `SignRequest` calls on the same composer, at different clock readings,
both succeed and append that same string after `signify=` under
`Signature-Input`, with the `created` value fixed at construction. -/
theorem SignRequest_keeps_composer (unixNow : Int) (fields : List String) (publicKey : String)
    (privateKey : Bytes) (ext1 ext2 : Externals) (r : Request)
    (hok : ((NewSignatureData unixNow fields publicKey privateKey).SignatureBase r).2 = none) :
    (NewSignatureData unixNow fields publicKey privateKey).SignatureInput
        = "(" ++ " ".intercalate (fields.map (fun f => "\"" ++ f ++ "\""))
            ++ ");created=" ++ toString unixNow
            ++ ";keyid=\"" ++ publicKey ++ "\";alg=\"ed25519\""
      ∧ ((NewSignatureData unixNow fields publicKey privateKey).SignRequest ext1 r).2 = none
      ∧ ((NewSignatureData unixNow fields publicKey privateKey).SignRequest ext2
            ((NewSignatureData unixNow fields publicKey privateKey).SignRequest ext1 r).1).2
          = none
      ∧ ((NewSignatureData unixNow fields publicKey privateKey).SignRequest ext2
            ((NewSignatureData unixNow fields publicKey privateKey).SignRequest ext1 r).1).1.Header
            "Signature-Input"
          = r.Header "Signature-Input"
              ++ ["signify=" ++ (NewSignatureData unixNow fields publicKey privateKey).SignatureInput,
                  "signify="
                    ++ (NewSignatureData unixNow fields publicKey privateKey).SignatureInput] := by
  have h1 := SignRequest_signature_input ext1 _ r hok
  have hok2 : ((NewSignatureData unixNow fields publicKey privateKey).SignatureBase
      ((NewSignatureData unixNow fields publicKey privateKey).SignRequest ext1 r).1).2 = none :=
    (SignatureBase_error_indep _ r _).mp hok
  have h2 := SignRequest_signature_input ext2 _ _ hok2
  refine ⟨?_, h1.1, h2.1, ?_⟩
  · simp only [SignatureData.SignatureInput, NewSignatureData, SignatureInput_loop_eq,
      String.append_assoc]
    rfl
  · rw [h2.2, h1.2, List.append_assoc]
    rfl

/-- Witness of C17: the example request signed twice, at two clock readings, by
a composer over the field list of the wrapper. -/
theorem SignRequest_keeps_composer_witness :
    ((NewSignatureData 1700000000 signatureFields "EKey" exampleKey).SignatureBase
        exampleRequest).2 = none
      ∧ ((NewSignatureData 1700000000 signatureFields "EKey" exampleKey).SignRequest
            { exampleExternals with originDate := "2024-01-02T03:04:09.000000+00:00" }
            ((NewSignatureData 1700000000 signatureFields "EKey" exampleKey).SignRequest
              exampleExternals exampleRequest).1).2 = none :=
  ⟨by decide,
    (SignRequest_keeps_composer 1700000000 signatureFields "EKey" exampleKey exampleExternals
      { exampleExternals with originDate := "2024-01-02T03:04:09.000000+00:00" }
      exampleRequest (by decide)).2.2.1⟩

/-! ## The signing client -/

/-- C18: once `json.Marshal`, `http.NewRequestWithContext` and `digest.AddDigest`
have succeeded, `SendSignedRequest` returns exactly what `Do` returns on the
request as `SignRequest` left it; the error of `SignRequest` does not enter the
result, whatever the field list and whether signing succeeded or not. -/
theorem SendSignedRequest_discards_signing_error {Body Response : Type}
    (env : ClientExternals Body Response) (fields : List String) (csc : CserSignedClient)
    (method url : String) (body : Body) (bodyBytes : Bytes) (req req1 : Request)
    (hmarshal : env.Marshal body = Except.ok bodyBytes)
    (hrequest : env.NewRequestWithContext method url bodyBytes = Except.ok req)
    (hdigest : env.AddDigest req env.DigestSha256 bodyBytes false = (req1, none)) :
    csc.SendSignedRequest env fields method url body
      = env.Do ((NewSignatureData env.unixNow fields csc.publicKey csc.privateKey).SignRequest
          env.signing
          { req1 with
            Header := (req1.Header.Add "Content-Type" "application/json").Add
              "signify-resource" csc.publicKey }).1 := by
  unfold CserSignedClient.SendSignedRequest
  rw [hmarshal]
  simp only []
  rw [hrequest]
  simp only []
  rw [hdigest]
  simp only [ge_iff_le, Nat.zero_le, if_true]

/-- Witness of C18: with the field list `@bogus` signing fails, and the result
is still the result of `Do`, on a request that carries no `Signature`. -/
theorem SendSignedRequest_discards_signing_error_witness :
    ((NewSignatureData exampleClientExternals.unixNow ["@bogus"] exampleClient.publicKey
          exampleClient.privateKey).SignRequest exampleClientExternals.signing
        { Method := "POST"
          URL := exampleRequest.URL
          Header := ((Header.empty.Add "content-digest" "sha-256=:AAAA:").Add
            "Content-Type" "application/json").Add "signify-resource" "EKey" }).2
        = some "unknown field @bogus"
      ∧ exampleClient.SendSignedRequest exampleClientExternals ["@bogus"] "POST"
          "https://example.com/api/items" "{}" = (some [], none) :=
  ⟨by decide,
    (SendSignedRequest_discards_signing_error exampleClientExternals ["@bogus"] exampleClient
      "POST" "https://example.com/api/items" "{}" _ _ _ rfl rfl rfl).trans (by decide)⟩

/-- C19: every field of the package-level list `@method`, `@path`, `origin-date`,
`signify-resource`, `content-digest` evaluates without error on every request, so
`SignatureBase` and `SignRequest` return no error for a composer over that list,
and in particular for the composer that `SendSignedRequest` builds. -/
theorem signatureFields_never_fail {Body Response : Type} (sd : SignatureData)
    (ext : Externals) (r : Request) (env : ClientExternals Body Response)
    (csc : CserSignedClient) :
    (∀ f ∈ signatureFields, (sd.evaluateField f r).2 = none)
      ∧ (∀ f ∈ signatureFields, unknownDerivedField f = false)
      ∧ (({ sd with signatureFields := signatureFields }).SignatureBase r).2 = none
      ∧ (({ sd with signatureFields := signatureFields }).SignRequest ext r).2 = none
      ∧ ((NewSignatureData env.unixNow signatureFields csc.publicKey csc.privateKey).SignRequest
            env.signing r).2 = none := by
  have hfind : signatureFields.find? unknownDerivedField = none := by decide
  have hall : ∀ f ∈ signatureFields, unknownDerivedField f = false := by decide
  have hsign : ∀ (c : SignatureData) (x : Externals), c.signatureFields = signatureFields →
      (c.SignRequest x r).2 = none := by
    intro c x hc
    have hb := SignatureBase_of_find_none c
      { r with Header := r.Header.Add "origin-date" x.originDate } (by rw [hc]; exact hfind)
    rw [SignRequest_of_base_ok x c r hb]
  refine ⟨?_, hall, ?_, hsign _ _ rfl, hsign _ _ rfl⟩
  · intro f hf
    exact evaluateField_known sd f r (hall f hf)
  · exact SignatureBase_of_find_none _ r hfind

end httpsigcesr
